import Mathlib

/-!
Verification of the football league simulator (Go sources `main.go` and the
HTTP handler / storage files of the same package).

The embedding is shallow: Go structs become Lean structures, Go `int` fields
become `Int` (none of the verified properties depends on 64-bit overflow,
which is unreachable for the small counters involved), and the in-place
pointer mutations of `simulateMatch` / `editMatchResultHandler` become pure
state-passing functions over a `League` value.  Matches reference their two
teams by position in `League.teams`, mirroring the Go pointers into the
`league.Teams` slice; the fixture generator only ever produces two distinct
in-range references per match, which the theorems carry as hypotheses where
they matter.  The persistence collaborator (`storageService`) is `nil` in
the modelled configuration, so the storage calls guarded by `!= nil` are
no-ops and are omitted.
-/

/-- Go struct `Team` (main.go): identity, fixed strength, and the running
statistics ledger mutated by `simulateMatch` and `editMatchResultHandler`. -/
structure Team where
  teamName : String
  teamId : Int
  teamStrength : Int
  goalsFor : Int
  goalsAgainst : Int
  wins : Int
  draws : Int
  losses : Int
  points : Int
  goalsDifference : Int
deriving DecidableEq, Repr

/-- Go struct `Match` (main.go).  `home`/`away` are positions in
`League.teams`, standing in for the Go `*Team` pointers. -/
structure Match where
  matchId : Int
  week : Int
  home : Nat
  away : Nat
  homeTeamScore : Int
  awayTeamScore : Int
  played : Bool
deriving DecidableEq, Repr

/-- Go struct `LeagueTableEntry` (main.go). -/
structure LeagueTableEntry where
  teamName : String
  played : Int
  wins : Int
  draws : Int
  losses : Int
  goalsFor : Int
  goalsAgainst : Int
  goalsDifference : Int
  points : Int
  position : Int
deriving DecidableEq, Repr

/-- Go struct `League` (main.go).  The Go field `Matches` is called
`matchList` here because `matches` is reserved in Lean. -/
structure League where
  teams : List Team
  matchList : List Match
  currentWeek : Int
  leagueTable : List LeagueTableEntry
deriving DecidableEq, Repr

/-- The goal/result/points deltas that `simulateMatch` (main.go lines
170-189) applies to the home and away teams for a scoreline `(hs, as)`:
goals for/against on both sides, then exactly one of win/draw/loss with the
matching points delta, decided by strict comparison of the two scores.
The `GoalsDifference` recomputation (lines 191-192) is `recomputeGD` below,
kept separate because `editMatchResultHandler` recomputes it only once, at
the end. -/
def applyScore (hs as : Int) (th ta : Team) : Team × Team :=
  if as < hs then
    ({ th with goalsFor := th.goalsFor + hs, goalsAgainst := th.goalsAgainst + as,
               wins := th.wins + 1, points := th.points + 3 },
     { ta with goalsFor := ta.goalsFor + as, goalsAgainst := ta.goalsAgainst + hs,
               losses := ta.losses + 1 })
  else if hs < as then
    ({ th with goalsFor := th.goalsFor + hs, goalsAgainst := th.goalsAgainst + as,
               losses := th.losses + 1 },
     { ta with goalsFor := ta.goalsFor + as, goalsAgainst := ta.goalsAgainst + hs,
               wins := ta.wins + 1, points := ta.points + 3 })
  else
    ({ th with goalsFor := th.goalsFor + hs, goalsAgainst := th.goalsAgainst + as,
               draws := th.draws + 1, points := th.points + 1 },
     { ta with goalsFor := ta.goalsFor + as, goalsAgainst := ta.goalsAgainst + hs,
               draws := ta.draws + 1, points := ta.points + 1 })

/-- The revert phase of `editMatchResultHandler` (handler file lines
262-281): subtract the stored scoreline's goal contributions and reverse
the win/draw/loss and points delta, re-derived from the stored scoreline by
the same strict comparison. -/
def revertScore (hs as : Int) (th ta : Team) : Team × Team :=
  if as < hs then
    ({ th with goalsFor := th.goalsFor - hs, goalsAgainst := th.goalsAgainst - as,
               wins := th.wins - 1, points := th.points - 3 },
     { ta with goalsFor := ta.goalsFor - as, goalsAgainst := ta.goalsAgainst - hs,
               losses := ta.losses - 1 })
  else if hs < as then
    ({ th with goalsFor := th.goalsFor - hs, goalsAgainst := th.goalsAgainst - as,
               losses := th.losses - 1 },
     { ta with goalsFor := ta.goalsFor - as, goalsAgainst := ta.goalsAgainst - hs,
               wins := ta.wins - 1, points := ta.points - 3 })
  else
    ({ th with goalsFor := th.goalsFor - hs, goalsAgainst := th.goalsAgainst - as,
               draws := th.draws - 1, points := th.points - 1 },
     { ta with goalsFor := ta.goalsFor - as, goalsAgainst := ta.goalsAgainst - hs,
               draws := ta.draws - 1, points := ta.points - 1 })

/-- `team.GoalsDifference = team.GoalsFor - team.GoalsAgainst`, the final
step of both `simulateMatch` (lines 191-192) and `editMatchResultHandler`
(lines 310-311). -/
def recomputeGD (t : Team) : Team :=
  { t with goalsDifference := t.goalsFor - t.goalsAgainst }

/-- Net effect of `simulateMatch` on the two referenced teams, for the
scoreline the random engine produced. -/
def simTeams (hs as : Int) (th ta : Team) : Team × Team :=
  let r := applyScore hs as th ta
  (recomputeGD r.1, recomputeGD r.2)

/-- Net effect of `editMatchResultHandler` on the two referenced teams:
revert the old scoreline, apply the new one, recompute goal difference. -/
def editTeams (oldh olda newh newa : Int) (th ta : Team) : Team × Team :=
  let r := revertScore oldh olda th ta
  let a := applyScore newh newa r.1 r.2
  (recomputeGD a.1, recomputeGD a.2)

/-- Reverting a scoreline undoes exactly the ledger deltas that applying it
contributed (the correction algorithm's re-derivation rule is a strict
inverse on all fields it touches). -/
theorem revertScore_applyScore (hs as : Int) (th ta : Team) :
    revertScore hs as (applyScore hs as th ta).1 (applyScore hs as th ta).2 = (th, ta) := by
  cases th
  cases ta
  rcases lt_trichotomy as hs with h | h | h <;>
    simp [applyScore, revertScore, h, not_lt_of_lt, lt_irrefl, Prod.ext_iff,
      Team.mk.injEq]

/-- Correcting a freshly recorded result to a replacement scoreline leaves
the two ledgers exactly as a fresh application of the replacement scoreline
would have. -/
theorem editTeams_simTeams (oh oa nh na : Int) (th ta : Team) :
    editTeams oh oa nh na (simTeams oh oa th ta).1 (simTeams oh oa th ta).2 =
      simTeams nh na th ta := by
  cases th
  cases ta
  rcases lt_trichotomy oa oh with h | h | h <;>
    rcases lt_trichotomy na nh with g | g | g <;>
      simp [editTeams, simTeams, applyScore, revertScore, recomputeGD, h, g,
        not_lt_of_lt, lt_irrefl, Prod.ext_iff, Team.mk.injEq]

/-- Correction round trip on the two ledgers: editing a recorded result to
an intermediate scoreline and then back restores both ledgers exactly,
provided the stored goal differences were consistent to begin with (which
holds in every state the program reaches, since every mutation ends by
recomputing them). -/
theorem editTeams_roundtrip (oh oa nh na : Int) (th ta : Team)
    (hgd1 : th.goalsDifference = th.goalsFor - th.goalsAgainst)
    (hgd2 : ta.goalsDifference = ta.goalsFor - ta.goalsAgainst) :
    editTeams nh na oh oa (editTeams oh oa nh na th ta).1 (editTeams oh oa nh na th ta).2 =
      (th, ta) := by
  cases th
  cases ta
  simp only at hgd1 hgd2
  rcases lt_trichotomy oa oh with h | h | h <;>
    rcases lt_trichotomy na nh with g | g | g <;>
      simp [editTeams, applyScore, revertScore, recomputeGD, h, g,
        not_lt_of_lt, lt_irrefl, Prod.ext_iff, Team.mk.injEq] <;> omega

/-- Projection of a `Team` to its league-table row, from `updateLeagueTable`
(main.go lines 203-215): `Played` is `Wins+Draws+Losses`, the goal
difference is recomputed from the goal tallies, and `Position` is the Go
zero value until assigned after sorting. -/
def toEntry (t : Team) : LeagueTableEntry :=
  { teamName := t.teamName
    played := t.wins + t.draws + t.losses
    wins := t.wins
    draws := t.draws
    losses := t.losses
    goalsFor := t.goalsFor
    goalsAgainst := t.goalsAgainst
    goalsDifference := t.goalsFor - t.goalsAgainst
    points := t.points
    position := 0 }

/-- The comparison closure passed to `sort.Slice` in `updateLeagueTable`
(main.go lines 219-224): points descending, goal difference descending on
equal points. -/
def tableLess (a b : LeagueTableEntry) : Bool :=
  if a.points = b.points then b.goalsDifference < a.goalsDifference
  else b.points < a.points

/-- One insertion step of the sort that `sort.Slice` performs on the league
table.  For slices of at most 12 elements Go's `sort.Slice` runs plain
insertion sort (both the pre-1.19 `quickSort` and the current `pdqsort`
dispatch to it below that length, and the league table has 4 rows), which
moves each new element left past every sorted-prefix element it compares
less than; on a prefix sorted by this comparison that is the same as
placing the element before the first prefix element it compares less than,
which is the form used here. -/
def goInsert (x : LeagueTableEntry) : List LeagueTableEntry → List LeagueTableEntry
  | [] => [x]
  | h :: t => if tableLess x h then x :: h :: t else h :: goInsert x t

/-- The sort `sort.Slice` performs on the league table (see `goInsert`):
left-to-right insertion of each row into the sorted prefix. -/
def goSort (l : List LeagueTableEntry) : List LeagueTableEntry :=
  l.foldl (fun acc x => goInsert x acc) []

/-- Position assignment after sorting, `updateLeagueTable` lines 227-229:
1-based index in sorted order. -/
def assignPositions (k : Int) : List LeagueTableEntry → List LeagueTableEntry
  | [] => []
  | e :: rest => { e with position := k } :: assignPositions (k + 1) rest

/-- `updateLeagueTable` (main.go lines 198-230): rebuild the table from the
current team ledgers, sort it, assign positions.  Teams, matches and the
week counter are untouched. -/
def updateLeagueTable (s : League) : League :=
  { s with leagueTable := assignPositions 1 (goSort (s.teams.map toEntry)) }

/-- The match-lookup loop of `editMatchResultHandler` (handler lines
240-245): position of the first match carrying the requested id. -/
def findMatchIdx (mid : Int) : List Match → Option Nat
  | [] => none
  | m :: rest =>
      if m.matchId = mid then some 0
      else (findMatchIdx mid rest).map (· + 1)

/-- `simulateMatch` (main.go lines 123-195) lifted to the league, for the
match at position `j` and the scoreline `(hs, as)` the random engine
produced: a no-op when the match is already played (the function's explicit
early return), otherwise records the scoreline, marks the match played and
applies the ledger deltas to the two referenced teams.  Out-of-range
references cannot arise from the generated fixtures; the model returns the
state unchanged for them. -/
def simulateMatchAt (s : League) (j : Nat) (hs as : Int) : League :=
  match s.matchList[j]? with
  | none => s
  | some m =>
    if m.played then s
    else
      match s.teams[m.home]?, s.teams[m.away]? with
      | some th, some ta =>
          let r := simTeams hs as th ta
          { s with
            teams := (s.teams.set m.home r.1).set m.away r.2
            matchList := s.matchList.set j
              { m with homeTeamScore := hs, awayTeamScore := as, played := true } }
      | _, _ => s

/-- The error outcomes of `editMatchResultHandler`: 404 for an unknown
match id, 400 for a not-yet-played match. -/
inductive EditError where
  | matchNotFound
  | matchNotYetPlayed
deriving DecidableEq, Repr

/-- `editMatchResultHandler` (handler lines 215-339) with the request
already decoded: look the match up by id, reject unknown ids and unplayed
matches without touching anything, otherwise revert the stored scoreline's
ledger deltas, overwrite the scoreline with the replacement, re-apply the
deltas, recompute the two goal differences and rebuild the league table.
The replacement scores are not validated anywhere in the handler.  Returns
the error (if any) together with the resulting league state. -/
def editMatchResult (s : League) (mid hs as : Int) : Option EditError × League :=
  match findMatchIdx mid s.matchList with
  | none => (some .matchNotFound, s)
  | some j =>
    match s.matchList[j]? with
    | none => (some .matchNotFound, s)
    | some m =>
      if m.played = false then (some .matchNotYetPlayed, s)
      else
        match s.teams[m.home]?, s.teams[m.away]? with
        | some th, some ta =>
            let r := editTeams m.homeTeamScore m.awayTeamScore hs as th ta
            let s' := { s with
              teams := (s.teams.set m.home r.1).set m.away r.2
              matchList := s.matchList.set j
                { m with homeTeamScore := hs, awayTeamScore := as } }
            (none, updateLeagueTable s')
        | _, _ => (some .matchNotFound, s)

/-- `weeklySimulator` (main.go lines 232-240): increment the week counter,
simulate every not-yet-played match of the new current week in slice order,
rebuild the table.  `score j` supplies the scoreline the random engine
produces for the match at position `j`. -/
def weeklySimulator (score : Nat → Int × Int) (s : League) : League :=
  let s1 := { s with currentWeek := s.currentWeek + 1 }
  let s2 := (List.range s1.matchList.length).foldl
    (fun acc j =>
      match acc.matchList[j]? with
      | some m =>
          if m.week = acc.currentWeek ∧ m.played = false then
            simulateMatchAt acc j (score j).1 (score j).2
          else acc
      | none => acc) s1
  updateLeagueTable s2

/-- `SimulateNextWeek` (handler lines 38-81, storage collaborator absent):
scan for an unplayed match at `CurrentWeek + 1`; if none exists return the
"no more matches to simulate" error before mutating anything, otherwise run
`weeklySimulator`.  The returned pair is (error if any, resulting league
state). -/
def simulateNextWeek (score : Nat → Int × Int) (s : League) :
    Option String × League :=
  let nextWeek := s.currentWeek + 1
  if s.matchList.any (fun m => m.week == nextWeek && !m.played) then
    (none, weeklySimulator score s)
  else
    (some "no more matches to simulate", s)

/-- The fixed week pairings of `createPremierLeagueMatches` (main.go lines
77-81), as positions into the team list. -/
def weekFixtures : List (List (Nat × Nat)) :=
  [[(0, 1), (2, 3)], [(0, 2), (1, 3)], [(0, 3), (1, 2)]]

/-- The inner fixture loop of `createPremierLeagueMatches`: one week's
matches with consecutive ids, home/away swapped for the second leg. -/
def rowMatches (rev : Bool) (mid week : Int) : List (Nat × Nat) → List Match
  | [] => []
  | (h, a) :: rest =>
      { matchId := mid, week := week,
        home := if rev then a else h, away := if rev then h else a,
        homeTeamScore := 0, awayTeamScore := 0, played := false }
        :: rowMatches rev (mid + 1) week rest

/-- The outer leg loop of `createPremierLeagueMatches`: one leg's weeks,
with the running match id and week counters. -/
def legMatches (rev : Bool) (mid week : Int) : List (List (Nat × Nat)) → List Match
  | [] => []
  | fs :: rest =>
      rowMatches rev mid week fs
        ++ legMatches rev (mid + fs.length) (week + 1) rest

/-- `createPremierLeagueMatches` (main.go lines 66-120): first leg over
weeks 1-3 with ids 1-6, then the same pairings with home and away reversed
over weeks 4-6 with ids 7-12 (the id and week counters keep running across
the two loops). -/
def createPremierLeagueMatches : List Match :=
  legMatches false 1 1 weekFixtures ++ legMatches true 7 4 weekFixtures

/-- `createPremierLeagueTeams` (main.go lines 55-63): the four fixed teams
with all-zero ledgers (Go zero values). -/
def createPremierLeagueTeams : List Team :=
  [ { teamName := "Manchester United", teamId := 1, teamStrength := 80,
      goalsFor := 0, goalsAgainst := 0, wins := 0, draws := 0, losses := 0,
      points := 0, goalsDifference := 0 },
    { teamName := "Liverpool", teamId := 2, teamStrength := 85,
      goalsFor := 0, goalsAgainst := 0, wins := 0, draws := 0, losses := 0,
      points := 0, goalsDifference := 0 },
    { teamName := "Manchester City", teamId := 3, teamStrength := 90,
      goalsFor := 0, goalsAgainst := 0, wins := 0, draws := 0, losses := 0,
      points := 0, goalsDifference := 0 },
    { teamName := "Chelsea", teamId := 4, teamStrength := 88,
      goalsFor := 0, goalsAgainst := 0, wins := 0, draws := 0, losses := 0,
      points := 0, goalsDifference := 0 } ]

/-- The league as `main` builds it (main.go lines 439-445). -/
def initLeague : League :=
  { teams := createPremierLeagueTeams
    matchList := createPremierLeagueMatches
    currentWeek := 0
    leagueTable := [] }

/-- A league with no fixtures at all, so no match exists at the target week
of the next advance. -/
def noMatchLeague : League :=
  { teams := createPremierLeagueTeams
    matchList := []
    currentWeek := 0
    leagueTable := [] }

/-- The initial league after week 1's first match has been recorded as 2-1:
a concrete state containing a played match. -/
def playedLeague : League := simulateMatchAt initLeague 0 2 1

/-- C4: the fixture generator yields exactly 12 matches over weeks 1-6,
every competitor is home in exactly 3 and away in exactly 3, appears
exactly once in each of the 6 weeks, and no two matches of one week share
a competitor. -/
theorem fixtures_spec :
    createPremierLeagueMatches.length = 12 ∧
    (∀ m ∈ createPremierLeagueMatches, 1 ≤ m.week ∧ m.week ≤ 6) ∧
    (∀ t : Fin 4,
      createPremierLeagueMatches.countP (fun m => m.home == t.val) = 3 ∧
      createPremierLeagueMatches.countP (fun m => m.away == t.val) = 3 ∧
      createPremierLeagueMatches.countP
        (fun m => m.home == t.val || m.away == t.val) = 6) ∧
    (∀ t : Fin 4, ∀ w ∈ ([1, 2, 3, 4, 5, 6] : List Int),
      createPremierLeagueMatches.countP
        (fun m => m.week == w && (m.home == t.val || m.away == t.val)) = 1) ∧
    List.Pairwise
      (fun m1 m2 => m1.week = m2.week →
        m1.home ≠ m2.home ∧ m1.home ≠ m2.away ∧
        m1.away ≠ m2.home ∧ m1.away ≠ m2.away)
      createPremierLeagueMatches := by decide

/-- C6 counterexample: advancing `noMatchLeague`, which has no match at the
target week 1, fails with the "no more matches" error but the week counter
is NOT incremented — `SimulateNextWeek` validates before `weeklySimulator`
ever runs, so the counter stays at 0, contradicting the claim that it is
still incremented by one. -/
theorem simulateNextWeek_counter_not_incremented :
    (¬ ∃ m ∈ noMatchLeague.matchList,
        m.week = noMatchLeague.currentWeek + 1 ∧ m.played = false) ∧
    (simulateNextWeek (fun _ => (0, 0)) noMatchLeague).1 =
      some "no more matches to simulate" ∧
    (simulateNextWeek (fun _ => (0, 0)) noMatchLeague).2.currentWeek ≠
      noMatchLeague.currentWeek + 1 := by decide

/-- C6 (amended): when no unplayed match exists at `CurrentWeek + 1`,
`SimulateNextWeek` fails with the "no more matches to simulate" error and
leaves the league — in particular the week counter — completely unchanged. -/
theorem simulateNextWeek_no_matches (score : Nat → Int × Int) (s : League)
    (h : s.matchList.any
        (fun m => m.week == s.currentWeek + 1 && !m.played) = false) :
    simulateNextWeek score s = (some "no more matches to simulate", s) := by
  simp only [simulateNextWeek, h, Bool.false_eq_true, if_false]

/-- Witness for `simulateNextWeek_no_matches` at `noMatchLeague`. -/
theorem simulateNextWeek_no_matches_witness :
    (noMatchLeague.matchList.any
        (fun m => m.week == noMatchLeague.currentWeek + 1 && !m.played) = false) ∧
    simulateNextWeek (fun _ => (0, 0)) noMatchLeague =
      (some "no more matches to simulate", noMatchLeague) :=
  ⟨by decide, simulateNextWeek_no_matches (fun _ => (0, 0)) noMatchLeague (by decide)⟩

/-- C7: correcting a match whose `Played` flag is false fails with the
not-yet-played error and returns the league unchanged — ledgers, scoreline,
played flag and standings all keep their previous values. -/
theorem editMatchResult_unplayed (s : League) (mid hs as : Int) (j : Nat)
    (m : Match) (hfind : findMatchIdx mid s.matchList = some j)
    (hm : s.matchList[j]? = some m) (hnp : m.played = false) :
    editMatchResult s mid hs as = (some .matchNotYetPlayed, s) := by
  simp only [editMatchResult, hfind, hm, hnp, if_true]

/-- Witness for `editMatchResult_unplayed`: match 1 of the freshly created
league is unplayed, and correcting it to 3-0 fails without mutation. -/
theorem editMatchResult_unplayed_witness :
    (findMatchIdx 1 initLeague.matchList = some 0 ∧
      initLeague.matchList[0]? = some
        { matchId := 1, week := 1, home := 0, away := 1,
          homeTeamScore := 0, awayTeamScore := 0, played := false }) ∧
    editMatchResult initLeague 1 3 0 = (some .matchNotYetPlayed, initLeague) :=
  ⟨⟨by decide, by decide⟩,
    editMatchResult_unplayed initLeague 1 3 0 0
      { matchId := 1, week := 1, home := 0, away := 1,
        homeTeamScore := 0, awayTeamScore := 0, played := false }
      (by decide) (by decide) rfl⟩

/-- C8 counterexample: correcting played match 1 of `playedLeague` to the
malformed scoreline -1 : 0 does NOT surface an input error — the handler
never validates the decoded scores — and it mutates the ledgers (the home
team's goals-for drops to -1), contradicting the claim that no state
changes. -/
theorem editMatchResult_accepts_negative_scores :
    (editMatchResult playedLeague 1 (-1) 0).1 = none ∧
    (editMatchResult playedLeague 1 (-1) 0).2.teams ≠ playedLeague.teams := by
  decide

/-- C8 (amended): the only input validation the correction path performs is
the match-id lookup: an unknown match id is rejected with `matchNotFound`
and no state is mutated, while any decodable replacement scoreline —
including negative goal counts — is accepted and applied unvalidated. -/
theorem editMatchResult_unknown_id (s : League) (mid hs as : Int)
    (h : findMatchIdx mid s.matchList = none) :
    editMatchResult s mid hs as = (some .matchNotFound, s) := by
  simp only [editMatchResult, h]

/-- Witness for `editMatchResult_unknown_id`: no match carries id 99. -/
theorem editMatchResult_unknown_id_witness :
    (findMatchIdx 99 initLeague.matchList = none) ∧
    editMatchResult initLeague 99 2 2 = (some .matchNotFound, initLeague) :=
  ⟨by decide, editMatchResult_unknown_id initLeague 99 2 2 (by decide)⟩

/-- Writing back the value already stored at a position leaves the list
unchanged. -/
theorem List.set_getElem_self_eq {α : Type _} (l : List α) (j : Nat)
    (h : j < l.length) : l.set j l[j] = l := by
  apply List.ext_getElem
  · simp
  · intro i h1 h2
    rw [List.getElem_set]
    split
    · subst i; rfl
    · rfl

/-- Two successive writes of a pair of distinct positions collapse to the
final pair of writes. -/
theorem List.set_pair_set_pair {α : Type _} (l : List α) (i j : Nat)
    (hne : i ≠ j) (a b c d : α) :
    (((l.set i a).set j b).set i c).set j d = (l.set i c).set j d := by
  rw [List.set_comm b c _ hne.symm, List.set_set, List.set_set]

/-- The match-lookup loop finds the same position after a match is
overwritten in place, as long as the overwrite keeps the match id (which
both the simulation and the correction do). -/
theorem findMatchIdx_set (mid : Int) (l : List Match) (j : Nat) (x : Match)
    (hj : j < l.length) (hid : x.matchId = l[j].matchId) :
    findMatchIdx mid (l.set j x) = findMatchIdx mid l := by
  induction l generalizing j with
  | nil => simp at hj
  | cons m rest ih =>
      cases j with
      | zero =>
          simp only [List.getElem_cons_zero] at hid
          simp only [List.set_cons_zero, findMatchIdx, hid]
      | succ k =>
          simp only [List.getElem_cons_succ] at hid
          simp only [List.set_cons_succ, findMatchIdx]
          rw [ih k (by simpa using hj) hid]

/-- The first fixture the generator emits (match id 1, week 1, teams 0-1). -/
def firstFixture : Match :=
  { matchId := 1, week := 1, home := 0, away := 1,
    homeTeamScore := 0, awayTeamScore := 0, played := false }

/-- The recorded form of `firstFixture` in `playedLeague` (scoreline 2-1). -/
def playedFixture : Match :=
  { matchId := 1, week := 1, home := 0, away := 1,
    homeTeamScore := 2, awayTeamScore := 1, played := true }

/-- C1: for a match recorded with scoreline `(oh, oa)` and any replacement
scoreline `(nh, na)`, running the correction handler leaves every team
ledger exactly as a fresh application of the replacement scoreline by the
match outcome engine's delta rule would have: the corrected league's team
list equals the team list of the league in which the match was simulated
with the replacement scoreline in the first place. -/
theorem correction_refines_fresh_result (s : League) (j : Nat) (m : Match)
    (oh oa nh na : Int)
    (hm : s.matchList[j]? = some m)
    (hfind : findMatchIdx m.matchId s.matchList = some j)
    (hup : m.played = false)
    (hh : m.home < s.teams.length) (ha : m.away < s.teams.length)
    (hne : m.home ≠ m.away) :
    (editMatchResult (simulateMatchAt s j oh oa) m.matchId nh na).1 = none ∧
    (editMatchResult (simulateMatchAt s j oh oa) m.matchId nh na).2.teams =
      (simulateMatchAt s j nh na).teams := by
  obtain ⟨hjlen, hmj⟩ := List.getElem?_eq_some.mp hm
  have hth : s.teams[m.home]? = some s.teams[m.home] := List.getElem?_eq_getElem hh
  have hta : s.teams[m.away]? = some s.teams[m.away] := List.getElem?_eq_getElem ha
  have hsim : ∀ h1 a1 : Int, simulateMatchAt s j h1 a1 =
      { s with
        teams := (s.teams.set m.home
            (simTeams h1 a1 s.teams[m.home] s.teams[m.away]).1).set m.away
            (simTeams h1 a1 s.teams[m.home] s.teams[m.away]).2
        matchList := s.matchList.set j
          { m with homeTeamScore := h1, awayTeamScore := a1, played := true } } := by
    intro h1 a1
    simp only [simulateMatchAt, hm, hup, hth, hta, if_false, Bool.false_eq_true]
  rw [hsim oh oa, hsim nh na]
  have hfind1 : findMatchIdx m.matchId
      (s.matchList.set j { m with homeTeamScore := oh, awayTeamScore := oa, played := true })
      = some j := by
    rw [findMatchIdx_set _ _ _ _ hjlen (by rw [hmj])]
    exact hfind
  have hget1 : (s.matchList.set j
      { m with homeTeamScore := oh, awayTeamScore := oa, played := true })[j]? =
      some { m with homeTeamScore := oh, awayTeamScore := oa, played := true } :=
    List.getElem?_set_self (by simpa using hjlen)
  have hteams1 : ((s.teams.set m.home
      (simTeams oh oa s.teams[m.home] s.teams[m.away]).1).set m.away
      (simTeams oh oa s.teams[m.home] s.teams[m.away]).2)[m.home]? =
      some (simTeams oh oa s.teams[m.home] s.teams[m.away]).1 := by
    rw [List.getElem?_set_ne hne.symm, List.getElem?_set_self hh]
  have hteams2 : ((s.teams.set m.home
      (simTeams oh oa s.teams[m.home] s.teams[m.away]).1).set m.away
      (simTeams oh oa s.teams[m.home] s.teams[m.away]).2)[m.away]? =
      some (simTeams oh oa s.teams[m.home] s.teams[m.away]).2 :=
    List.getElem?_set_self (by simpa using ha)
  simp only [editMatchResult, hfind1, hget1, hteams1, hteams2, updateLeagueTable,
    List.set_set, Bool.true_eq_false, if_false]
  refine ⟨trivial, ?_⟩
  rw [List.set_pair_set_pair _ _ _ hne]
  rw [editTeams_simTeams]


/-- C3: correcting a played match's score to an intermediate value and then
correcting it back to its original value restores every competitor's
ledger, and the match list, exactly (given the goal-difference fields were
consistent, as they are in every state the program produces). -/
theorem correction_roundtrip (s : League) (j : Nat) (m : Match) (nh na : Int)
    (hm : s.matchList[j]? = some m)
    (hfind : findMatchIdx m.matchId s.matchList = some j)
    (hp : m.played = true)
    (hh : m.home < s.teams.length) (ha : m.away < s.teams.length)
    (hne : m.home ≠ m.away)
    (hgdh : s.teams[m.home].goalsDifference =
      s.teams[m.home].goalsFor - s.teams[m.home].goalsAgainst)
    (hgda : s.teams[m.away].goalsDifference =
      s.teams[m.away].goalsFor - s.teams[m.away].goalsAgainst) :
    (editMatchResult s m.matchId nh na).1 = none ∧
    (editMatchResult (editMatchResult s m.matchId nh na).2 m.matchId
        m.homeTeamScore m.awayTeamScore).1 = none ∧
    (editMatchResult (editMatchResult s m.matchId nh na).2 m.matchId
        m.homeTeamScore m.awayTeamScore).2.teams = s.teams ∧
    (editMatchResult (editMatchResult s m.matchId nh na).2 m.matchId
        m.homeTeamScore m.awayTeamScore).2.matchList = s.matchList := by
  obtain ⟨hjlen, hmj⟩ := List.getElem?_eq_some.mp hm
  have hth : s.teams[m.home]? = some s.teams[m.home] := List.getElem?_eq_getElem hh
  have hta : s.teams[m.away]? = some s.teams[m.away] := List.getElem?_eq_getElem ha
  have hedit1 : editMatchResult s m.matchId nh na =
      (none, updateLeagueTable
        { s with
          teams := (s.teams.set m.home
              (editTeams m.homeTeamScore m.awayTeamScore nh na
                s.teams[m.home] s.teams[m.away]).1).set m.away
              (editTeams m.homeTeamScore m.awayTeamScore nh na
                s.teams[m.home] s.teams[m.away]).2
          matchList := s.matchList.set j
            ⟨m.matchId, m.week, m.home, m.away, nh, na, true⟩ }) := by
    simp only [editMatchResult, hfind, hm, hp, hth, hta, Bool.true_eq_false,
      if_false]
  rw [hedit1]
  set e1 := (editTeams m.homeTeamScore m.awayTeamScore nh na
    s.teams[m.home] s.teams[m.away]).1 with he1
  set e2 := (editTeams m.homeTeamScore m.awayTeamScore nh na
    s.teams[m.home] s.teams[m.away]).2 with he2
  have hfind2 : findMatchIdx m.matchId
      (s.matchList.set j ⟨m.matchId, m.week, m.home, m.away, nh, na, true⟩) =
      some j := by
    rw [findMatchIdx_set _ _ _ _ hjlen (by rw [hmj])]
    exact hfind
  have hget2 : (s.matchList.set j
      (⟨m.matchId, m.week, m.home, m.away, nh, na, true⟩ : Match))[j]? =
      some (⟨m.matchId, m.week, m.home, m.away, nh, na, true⟩ : Match) :=
    List.getElem?_set_self (by simpa using hjlen)
  have hteams1 : ((s.teams.set m.home e1).set m.away e2)[m.home]? = some e1 := by
    rw [List.getElem?_set_ne hne.symm, List.getElem?_set_self hh]
  have hteams2 : ((s.teams.set m.home e1).set m.away e2)[m.away]? = some e2 :=
    List.getElem?_set_self (by simpa using ha)
  simp only [updateLeagueTable, editMatchResult, hfind2, hget2, hteams1, hteams2,
    Bool.true_eq_false, if_false, List.set_set]
  refine ⟨trivial, trivial, ?_, ?_⟩
  · rw [he1, he2, List.set_pair_set_pair _ _ _ hne]
    rw [editTeams_roundtrip _ _ _ _ _ _ hgdh hgda]
    rw [List.set_getElem_self_eq _ _ hh, List.set_getElem_self_eq _ _ ha]
  · have hm2 : (⟨m.matchId, m.week, m.home, m.away, m.homeTeamScore,
        m.awayTeamScore, true⟩ : Match) = m := by
      rw [← hp]
    rw [hm2, ← hmj, List.set_getElem_self_eq _ _ hjlen]

/-- Witness for `correction_refines_fresh_result`: match 1 of the fresh
league, recorded 2-1 and corrected to 0-3. -/
theorem correction_refines_fresh_result_witness :
    (initLeague.matchList[0]? = some firstFixture ∧
      findMatchIdx firstFixture.matchId initLeague.matchList = some 0 ∧
      firstFixture.played = false ∧
      firstFixture.home < initLeague.teams.length ∧
      firstFixture.away < initLeague.teams.length ∧
      firstFixture.home ≠ firstFixture.away) ∧
    ((editMatchResult (simulateMatchAt initLeague 0 2 1)
        firstFixture.matchId 0 3).1 = none ∧
      (editMatchResult (simulateMatchAt initLeague 0 2 1)
        firstFixture.matchId 0 3).2.teams =
        (simulateMatchAt initLeague 0 0 3).teams) :=
  ⟨⟨by decide, by decide, by decide, by decide, by decide, by decide⟩,
    correction_refines_fresh_result initLeague 0 firstFixture 2 1 0 3
      (by decide) (by decide) (by decide) (by decide) (by decide) (by decide)⟩

/-- Witness for `correction_roundtrip`: the 2-1 result of `playedLeague`
corrected to 0-0 and back to 2-1. -/
theorem correction_roundtrip_witness :
    (playedLeague.matchList[0]? = some playedFixture ∧
      findMatchIdx playedFixture.matchId playedLeague.matchList = some 0 ∧
      playedFixture.played = true ∧
      playedFixture.home < playedLeague.teams.length ∧
      playedFixture.away < playedLeague.teams.length ∧
      playedFixture.home ≠ playedFixture.away) ∧
    ((editMatchResult (editMatchResult playedLeague playedFixture.matchId 0 0).2
        playedFixture.matchId playedFixture.homeTeamScore
        playedFixture.awayTeamScore).2.teams = playedLeague.teams ∧
      (editMatchResult (editMatchResult playedLeague playedFixture.matchId 0 0).2
        playedFixture.matchId playedFixture.homeTeamScore
        playedFixture.awayTeamScore).2.matchList = playedLeague.matchList) :=
  ⟨⟨by decide, by decide, by decide, by decide, by decide, by decide⟩,
    ⟨(correction_roundtrip playedLeague 0 playedFixture 0 0 (by decide)
        (by decide) (by decide) (by decide) (by decide) (by decide)
        (by decide) (by decide)).2.2.1,
      (correction_roundtrip playedLeague 0 playedFixture 0 0 (by decide)
        (by decide) (by decide) (by decide) (by decide) (by decide)
        (by decide) (by decide)).2.2.2⟩⟩

theorem countP_set_add {α : Type _} (p : α → Bool) (l : List α) (j : Nat)
    (x : α) (hj : j < l.length) :
    (l.set j x).countP p + (if p l[j] then 1 else 0) =
      l.countP p + (if p x then 1 else 0) := by
  induction l generalizing j with
  | nil => simp at hj
  | cons a t ih =>
      cases j with
      | zero => simp [List.countP_cons]; omega
      | succ k =>
          simp only [List.set_cons_succ, List.countP_cons,
            List.getElem_cons_succ]
          have := ih k (by simpa using hj)
          omega

theorem sum_map_set {α : Type _} (f : α → Int) (l : List α) (j : Nat) (x : α)
    (hj : j < l.length) :
    ((l.set j x).map f).sum = (l.map f).sum - f l[j] + f x := by
  induction l generalizing j with
  | nil => simp at hj
  | cons a t ih =>
      cases j with
      | zero => simp [List.sum_cons]; ring
      | succ k =>
          simp only [List.set_cons_succ, List.map_cons, List.sum_cons,
            List.getElem_cons_succ]
          rw [ih k (by simpa using hj)]
          ring

theorem simTeams_fields (hs as : Int) (th ta : Team) :
    (simTeams hs as th ta).1.goalsFor = th.goalsFor + hs ∧
    (simTeams hs as th ta).1.goalsAgainst = th.goalsAgainst + as ∧
    (simTeams hs as th ta).2.goalsFor = ta.goalsFor + as ∧
    (simTeams hs as th ta).2.goalsAgainst = ta.goalsAgainst + hs ∧
    (simTeams hs as th ta).1.wins + (simTeams hs as th ta).1.draws +
      (simTeams hs as th ta).1.losses = th.wins + th.draws + th.losses + 1 ∧
    (simTeams hs as th ta).2.wins + (simTeams hs as th ta).2.draws +
      (simTeams hs as th ta).2.losses = ta.wins + ta.draws + ta.losses + 1 ∧
    (simTeams hs as th ta).1.wins + (simTeams hs as th ta).2.wins -
      th.wins - ta.wins =
      (simTeams hs as th ta).1.losses + (simTeams hs as th ta).2.losses -
      th.losses - ta.losses ∧
    (th.points = 3 * th.wins + th.draws →
      (simTeams hs as th ta).1.points =
        3 * (simTeams hs as th ta).1.wins + (simTeams hs as th ta).1.draws) ∧
    (ta.points = 3 * ta.wins + ta.draws →
      (simTeams hs as th ta).2.points =
        3 * (simTeams hs as th ta).2.wins + (simTeams hs as th ta).2.draws) ∧
    (simTeams hs as th ta).1.goalsDifference =
      (simTeams hs as th ta).1.goalsFor - (simTeams hs as th ta).1.goalsAgainst ∧
    (simTeams hs as th ta).2.goalsDifference =
      (simTeams hs as th ta).2.goalsFor - (simTeams hs as th ta).2.goalsAgainst := by
  rcases lt_trichotomy as hs with h | h | h <;>
    simp [simTeams, applyScore, recomputeGD, h, not_lt_of_lt, lt_irrefl] <;>
      omega

theorem editTeams_fields (oh oa nh na : Int) (th ta : Team) :
    (editTeams oh oa nh na th ta).1.goalsFor = th.goalsFor - oh + nh ∧
    (editTeams oh oa nh na th ta).1.goalsAgainst = th.goalsAgainst - oa + na ∧
    (editTeams oh oa nh na th ta).2.goalsFor = ta.goalsFor - oa + na ∧
    (editTeams oh oa nh na th ta).2.goalsAgainst = ta.goalsAgainst - oh + nh ∧
    (editTeams oh oa nh na th ta).1.wins + (editTeams oh oa nh na th ta).1.draws +
      (editTeams oh oa nh na th ta).1.losses =
      th.wins + th.draws + th.losses ∧
    (editTeams oh oa nh na th ta).2.wins + (editTeams oh oa nh na th ta).2.draws +
      (editTeams oh oa nh na th ta).2.losses =
      ta.wins + ta.draws + ta.losses ∧
    (editTeams oh oa nh na th ta).1.wins + (editTeams oh oa nh na th ta).2.wins -
      th.wins - ta.wins =
      (editTeams oh oa nh na th ta).1.losses +
        (editTeams oh oa nh na th ta).2.losses - th.losses - ta.losses ∧
    (th.points = 3 * th.wins + th.draws →
      (editTeams oh oa nh na th ta).1.points =
        3 * (editTeams oh oa nh na th ta).1.wins +
          (editTeams oh oa nh na th ta).1.draws) ∧
    (ta.points = 3 * ta.wins + ta.draws →
      (editTeams oh oa nh na th ta).2.points =
        3 * (editTeams oh oa nh na th ta).2.wins +
          (editTeams oh oa nh na th ta).2.draws) ∧
    (editTeams oh oa nh na th ta).1.goalsDifference =
      (editTeams oh oa nh na th ta).1.goalsFor -
        (editTeams oh oa nh na th ta).1.goalsAgainst ∧
    (editTeams oh oa nh na th ta).2.goalsDifference =
      (editTeams oh oa nh na th ta).2.goalsFor -
        (editTeams oh oa nh na th ta).2.goalsAgainst := by
  rcases lt_trichotomy oa oh with h | h | h <;>
    rcases lt_trichotomy na nh with g | g | g <;>
      simp [editTeams, applyScore, revertScore, recomputeGD, h, g,
        not_lt_of_lt, lt_irrefl] <;> omega

/-- Well-formed match references: every match points at two distinct,
in-range teams (the generated fixtures satisfy this and no operation
changes a match's team references). -/
def WF (s : League) : Prop :=
  ∀ m ∈ s.matchList, m.home < s.teams.length ∧ m.away < s.teams.length ∧
    m.home ≠ m.away

/-- Number of played matches referencing the team at position `i`. -/
def playedCount (s : League) (i : Nat) : Int :=
  (s.matchList.countP (fun m => m.played && (m.home == i || m.away == i)) : Int)

/-- The per-team ledger invariants of the spec, for every team position. -/
def teamInv (s : League) : Prop :=
  ∀ i t, s.teams[i]? = some t →
    t.points = 3 * t.wins + t.draws ∧
    t.goalsDifference = t.goalsFor - t.goalsAgainst ∧
    t.wins + t.draws + t.losses = playedCount s i

/-- League-wide conservation: goals scored equal goals conceded and wins
equal losses, summed over all teams. -/
def conservation (s : League) : Prop :=
  (s.teams.map Team.goalsFor).sum = (s.teams.map Team.goalsAgainst).sum ∧
  (s.teams.map Team.wins).sum = (s.teams.map Team.losses).sum

def LeagueInv (s : League) : Prop := WF s ∧ teamInv s ∧ conservation s

/-- States the program can reach: an initial league (well-formed fixtures,
all-zero ledgers, nothing played) transformed by any sequence of match
simulations (with the engine's 0-6 scorelines), result corrections and
table rebuilds. -/
inductive Reachable : League → Prop where
  | init (s : League) (hwf : WF s)
      (hz : ∀ t ∈ s.teams, t.goalsFor = 0 ∧ t.goalsAgainst = 0 ∧ t.wins = 0 ∧
        t.draws = 0 ∧ t.losses = 0 ∧ t.points = 0 ∧ t.goalsDifference = 0)
      (hu : ∀ m ∈ s.matchList, m.played = false) : Reachable s
  | sim (s : League) (j : Nat) (hs as : Int) (hr : Reachable s)
      (hb : 0 ≤ hs ∧ hs ≤ 6 ∧ 0 ≤ as ∧ as ≤ 6) :
      Reachable (simulateMatchAt s j hs as)
  | edit (s : League) (mid hs as : Int) (hr : Reachable s) :
      Reachable (editMatchResult s mid hs as).2
  | rebuild (s : League) (hr : Reachable s) : Reachable (updateLeagueTable s)

theorem updateLeagueTable_inv (s : League) (h : LeagueInv s) :
    LeagueInv (updateLeagueTable s) := by
  simpa [LeagueInv, WF, teamInv, conservation, playedCount,
    updateLeagueTable] using h

theorem simulateMatchAt_inv (s : League) (j : Nat) (hs1 as1 : Int)
    (h : LeagueInv s) : LeagueInv (simulateMatchAt s j hs1 as1) := by
  obtain ⟨hwf, hti, hc⟩ := h
  rcases hj : s.matchList[j]? with _ | m
  · simpa [simulateMatchAt, hj] using ⟨hwf, hti, hc⟩
  · obtain ⟨hjlen, hmj⟩ := List.getElem?_eq_some.mp hj
    by_cases hp : m.played = true
    · simpa [simulateMatchAt, hj, hp] using ⟨hwf, hti, hc⟩
    · have hp' : m.played = false := by simpa using hp
      have hmem : m ∈ s.matchList := hmj ▸ List.getElem_mem hjlen
      obtain ⟨hh, ha, hne⟩ := hwf m hmem
      have hth : s.teams[m.home]? = some s.teams[m.home] :=
        List.getElem?_eq_getElem hh
      have hta : s.teams[m.away]? = some s.teams[m.away] :=
        List.getElem?_eq_getElem ha
      have hred : simulateMatchAt s j hs1 as1 =
          { s with
            teams := (s.teams.set m.home
                (simTeams hs1 as1 s.teams[m.home] s.teams[m.away]).1).set m.away
                (simTeams hs1 as1 s.teams[m.home] s.teams[m.away]).2
            matchList := s.matchList.set j
              ⟨m.matchId, m.week, m.home, m.away, hs1, as1, true⟩ } := by
        simp only [simulateMatchAt, hj, hp', Bool.false_eq_true, if_false,
          hth, hta]
      rw [hred]
      obtain ⟨hgf1, hga1, hgf2, hga2, hwdl1, hwdl2, hwl, hpts1, hpts2,
        hgd1, hgd2⟩ := simTeams_fields hs1 as1 s.teams[m.home] s.teams[m.away]
      set x := (simTeams hs1 as1 s.teams[m.home] s.teams[m.away]).1 with hx
      set y := (simTeams hs1 as1 s.teams[m.home] s.teams[m.away]).2 with hy
      refine ⟨?_, ?_, ?_⟩
      · -- well-formedness is preserved
        intro mm hmm
        rcases List.mem_or_eq_of_mem_set hmm with hmm' | hmm'
        · simpa using hwf mm hmm'
        · subst hmm'
          simpa using ⟨hh, ha, hne⟩
      · -- per-team ledger invariants
        intro i t ht
        simp only at ht
        have hcnt := countP_set_add
          (fun mm => mm.played && (mm.home == i || mm.away == i))
          s.matchList j ⟨m.matchId, m.week, m.home, m.away, hs1, as1, true⟩ hjlen
        rw [hmj] at hcnt
        simp only [hp', Bool.false_eq_true, Bool.false_and, if_false,
          Bool.true_and] at hcnt
        simp only [playedCount]
        by_cases hia : i = m.away
        · subst hia
          rw [List.getElem?_set_self (by simpa using ha)] at ht
          obtain rfl : y = t := by simpa using ht
          obtain ⟨hq1, hq2, hq3⟩ := hti m.away s.teams[m.away] hta
          have hbeq : (m.home == m.away) = false := by
            simpa using hne
          simp only [playedCount] at hq3
          simp [hbeq] at hcnt
          exact ⟨hpts2 hq1, hgd2, by omega⟩
        · by_cases hih : i = m.home
          · subst hih
            rw [List.getElem?_set_ne (fun hq => hia hq.symm),
              List.getElem?_set_self (by simpa using hh)] at ht
            obtain rfl : x = t := by simpa using ht
            obtain ⟨hq1, hq2, hq3⟩ := hti m.home s.teams[m.home] hth
            simp only [playedCount] at hq3
            simp at hcnt
            exact ⟨hpts1 hq1, hgd1, by omega⟩
          · rw [List.getElem?_set_ne (fun hq => hia hq.symm),
              List.getElem?_set_ne (fun hq => hih hq.symm)] at ht
            obtain ⟨hq1, hq2, hq3⟩ := hti i t ht
            have hb1 : (m.home == i) = false := by
              simpa using fun hq => hih hq.symm
            have hb2 : (m.away == i) = false := by
              simpa using fun hq => hia hq.symm
            simp only [playedCount] at hq3
            simp [hb1, hb2] at hcnt
            exact ⟨hq1, hq2, by omega⟩
      · -- conservation of goals and of wins against losses
        have hlen1 : m.away < (s.teams.set m.home x).length := by simpa using ha
        have hgeta : (s.teams.set m.home x)[m.away] = s.teams[m.away] := by
          rw [List.getElem_set_ne hne]
        obtain ⟨hc1, hc2⟩ := hc
        constructor
        · have e1 := sum_map_set Team.goalsFor (s.teams.set m.home x) m.away y hlen1
          have e2 := sum_map_set Team.goalsFor s.teams m.home x hh
          have e3 := sum_map_set Team.goalsAgainst (s.teams.set m.home x) m.away y hlen1
          have e4 := sum_map_set Team.goalsAgainst s.teams m.home x hh
          rw [hgeta] at e1 e3
          simp only
          rw [e1, e2, e3, e4]
          simp only [Team.goalsFor, Team.goalsAgainst] at *
          omega
        · have e1 := sum_map_set Team.wins (s.teams.set m.home x) m.away y hlen1
          have e2 := sum_map_set Team.wins s.teams m.home x hh
          have e3 := sum_map_set Team.losses (s.teams.set m.home x) m.away y hlen1
          have e4 := sum_map_set Team.losses s.teams m.home x hh
          rw [hgeta] at e1 e3
          simp only
          rw [e1, e2, e3, e4]
          simp only [Team.wins, Team.losses] at *
          omega

theorem editMatchResult_inv (s : League) (mid nh na : Int)
    (h : LeagueInv s) : LeagueInv (editMatchResult s mid nh na).2 := by
  obtain ⟨hwf, hti, hc⟩ := h
  rcases hf : findMatchIdx mid s.matchList with _ | j
  · simpa [editMatchResult, hf] using ⟨hwf, hti, hc⟩
  · rcases hj : s.matchList[j]? with _ | m
    · simpa [editMatchResult, hf, hj] using ⟨hwf, hti, hc⟩
    · obtain ⟨hjlen, hmj⟩ := List.getElem?_eq_some.mp hj
      by_cases hp : m.played = true
      · have hmem : m ∈ s.matchList := hmj ▸ List.getElem_mem hjlen
        obtain ⟨hh, ha, hne⟩ := hwf m hmem
        have hth : s.teams[m.home]? = some s.teams[m.home] :=
          List.getElem?_eq_getElem hh
        have hta : s.teams[m.away]? = some s.teams[m.away] :=
          List.getElem?_eq_getElem ha
        have hred : (editMatchResult s mid nh na).2 = updateLeagueTable
            { s with
              teams := (s.teams.set m.home
                  (editTeams m.homeTeamScore m.awayTeamScore nh na
                    s.teams[m.home] s.teams[m.away]).1).set m.away
                  (editTeams m.homeTeamScore m.awayTeamScore nh na
                    s.teams[m.home] s.teams[m.away]).2
              matchList := s.matchList.set j
                ⟨m.matchId, m.week, m.home, m.away, nh, na, true⟩ } := by
          simp only [editMatchResult, hf, hj, hp, Bool.true_eq_false, if_false,
            hth, hta]
        rw [hred]
        apply updateLeagueTable_inv
        obtain ⟨hgf1, hga1, hgf2, hga2, hwdl1, hwdl2, hwl, hpts1, hpts2,
          hgd1, hgd2⟩ := editTeams_fields m.homeTeamScore m.awayTeamScore nh na
            s.teams[m.home] s.teams[m.away]
        set x := (editTeams m.homeTeamScore m.awayTeamScore nh na
          s.teams[m.home] s.teams[m.away]).1 with hx
        set y := (editTeams m.homeTeamScore m.awayTeamScore nh na
          s.teams[m.home] s.teams[m.away]).2 with hy
        refine ⟨?_, ?_, ?_⟩
        · intro mm hmm
          rcases List.mem_or_eq_of_mem_set hmm with hmm' | hmm'
          · simpa using hwf mm hmm'
          · subst hmm'
            simpa using ⟨hh, ha, hne⟩
        · intro i t ht
          simp only at ht
          have hcnt := countP_set_add
            (fun mm => mm.played && (mm.home == i || mm.away == i))
            s.matchList j ⟨m.matchId, m.week, m.home, m.away, nh, na, true⟩ hjlen
          rw [hmj] at hcnt
          simp only [hp, Bool.true_and] at hcnt
          have hcnt' : List.countP
              (fun mm => mm.played && (mm.home == i || mm.away == i))
              (s.matchList.set j ⟨m.matchId, m.week, m.home, m.away, nh, na, true⟩) =
              List.countP (fun mm => mm.played && (mm.home == i || mm.away == i))
                s.matchList := by omega
          simp only [playedCount]
          rw [hcnt']
          by_cases hia : i = m.away
          · subst hia
            rw [List.getElem?_set_self (by simpa using ha)] at ht
            obtain rfl : y = t := by simpa using ht
            obtain ⟨hq1, hq2, hq3⟩ := hti m.away s.teams[m.away] hta
            simp only [playedCount] at hq3
            exact ⟨hpts2 hq1, hgd2, by omega⟩
          · by_cases hih : i = m.home
            · subst hih
              rw [List.getElem?_set_ne (fun hq => hia hq.symm),
                List.getElem?_set_self (by simpa using hh)] at ht
              obtain rfl : x = t := by simpa using ht
              obtain ⟨hq1, hq2, hq3⟩ := hti m.home s.teams[m.home] hth
              simp only [playedCount] at hq3
              exact ⟨hpts1 hq1, hgd1, by omega⟩
            · rw [List.getElem?_set_ne (fun hq => hia hq.symm),
                List.getElem?_set_ne (fun hq => hih hq.symm)] at ht
              obtain ⟨hq1, hq2, hq3⟩ := hti i t ht
              simp only [playedCount] at hq3
              exact ⟨hq1, hq2, by omega⟩
        · have hlen1 : m.away < (s.teams.set m.home x).length := by simpa using ha
          have hgeta : (s.teams.set m.home x)[m.away] = s.teams[m.away] := by
            rw [List.getElem_set_ne hne]
          obtain ⟨hc1, hc2⟩ := hc
          constructor
          · have e1 := sum_map_set Team.goalsFor (s.teams.set m.home x) m.away y hlen1
            have e2 := sum_map_set Team.goalsFor s.teams m.home x hh
            have e3 := sum_map_set Team.goalsAgainst (s.teams.set m.home x) m.away y hlen1
            have e4 := sum_map_set Team.goalsAgainst s.teams m.home x hh
            rw [hgeta] at e1 e3
            simp only
            rw [e1, e2, e3, e4]
            omega
          · have e1 := sum_map_set Team.wins (s.teams.set m.home x) m.away y hlen1
            have e2 := sum_map_set Team.wins s.teams m.home x hh
            have e3 := sum_map_set Team.losses (s.teams.set m.home x) m.away y hlen1
            have e4 := sum_map_set Team.losses s.teams m.home x hh
            rw [hgeta] at e1 e3
            simp only
            rw [e1, e2, e3, e4]
            omega
      · have hp' : m.played = false := by simpa using hp
        simpa [editMatchResult, hf, hj, hp'] using ⟨hwf, hti, hc⟩

/-- Every reachable league state satisfies the well-formedness, per-team
ledger and conservation invariants. -/
theorem reachable_inv (s : League) (h : Reachable s) : LeagueInv s := by
  induction h with
  | init s hwf hz hu =>
      refine ⟨hwf, ?_, ?_⟩
      · intro i t ht
        have hmem : t ∈ s.teams := by
          obtain ⟨hlt, rfl⟩ := List.getElem?_eq_some.mp ht
          exact List.getElem_mem hlt
        obtain ⟨h1, h2, h3, h4, h5, h6, h7⟩ := hz t hmem
        have hzero : List.countP
            (fun m => m.played && (m.home == i || m.away == i)) s.matchList = 0 := by
          rw [List.countP_eq_zero]
          intro m hm
          simp [hu m hm]
        simp [playedCount, h1, h2, h3, h4, h5, h6, h7, hzero]
      · constructor
        · have hz1 : s.teams.map Team.goalsFor = s.teams.map (fun _ => (0 : Int)) :=
            List.map_congr_left (fun t ht => (hz t ht).1)
          have hz2 : s.teams.map Team.goalsAgainst = s.teams.map (fun _ => (0 : Int)) :=
            List.map_congr_left (fun t ht => (hz t ht).2.1)
          rw [hz1, hz2]
        · have hz1 : s.teams.map Team.wins = s.teams.map (fun _ => (0 : Int)) :=
            List.map_congr_left (fun t ht => (hz t ht).2.2.1)
          have hz2 : s.teams.map Team.losses = s.teams.map (fun _ => (0 : Int)) :=
            List.map_congr_left (fun t ht => (hz t ht).2.2.2.2.1)
          rw [hz1, hz2]
  | sim s j hs as hr hb ih => exact simulateMatchAt_inv s j hs as ih
  | edit s mid hs as hr ih => exact editMatchResult_inv s mid hs as ih
  | rebuild s hr ih => exact updateLeagueTable_inv s ih

/-- C2: in every reachable league state, every team's points equal
3·wins + draws, its goal difference equals goals for minus goals against,
and wins + draws + losses equals the number of played matches referencing
it. -/
theorem reachable_ledger_invariants (s : League) (h : Reachable s) (i : Nat)
    (t : Team) (ht : s.teams[i]? = some t) :
    t.points = 3 * t.wins + t.draws ∧
    t.goalsDifference = t.goalsFor - t.goalsAgainst ∧
    t.wins + t.draws + t.losses = playedCount s i :=
  (reachable_inv s h).2.1 i t ht

/-- C10: in every reachable league state the total of goals scored equals
the total of goals conceded and the total of wins equals the total of
losses; reachability is closed under both match simulation and result
correction, so both operations preserve the conservation law. -/
theorem reachable_conservation (s : League) (h : Reachable s) :
    (s.teams.map Team.goalsFor).sum = (s.teams.map Team.goalsAgainst).sum ∧
    (s.teams.map Team.wins).sum = (s.teams.map Team.losses).sum :=
  (reachable_inv s h).2.2

/-- `playedLeague` is reachable: one simulation step (scoreline 2-1 for
match position 0) from the freshly created league. -/
theorem reachable_playedLeague : Reachable playedLeague :=
  Reachable.sim initLeague 0 2 1
    (Reachable.init initLeague (by unfold WF; decide) (by decide) (by decide))
    (by norm_num)

/-- Manchester United's ledger in `playedLeague`. -/
def muAfter : Team :=
  { teamName := "Manchester United", teamId := 1, teamStrength := 80,
    goalsFor := 2, goalsAgainst := 1, wins := 1, draws := 0, losses := 0,
    points := 3, goalsDifference := 1 }

/-- Witness for `reachable_ledger_invariants` at `playedLeague`, team 0. -/
theorem reachable_ledger_invariants_witness :
    (Reachable playedLeague ∧ playedLeague.teams[0]? = some muAfter) ∧
    (muAfter.points = 3 * muAfter.wins + muAfter.draws ∧
      muAfter.goalsDifference = muAfter.goalsFor - muAfter.goalsAgainst ∧
      muAfter.wins + muAfter.draws + muAfter.losses =
        playedCount playedLeague 0) :=
  ⟨⟨reachable_playedLeague, by decide⟩,
    reachable_ledger_invariants playedLeague reachable_playedLeague 0 muAfter
      (by decide)⟩

/-- Witness for `reachable_conservation` at `playedLeague`. -/
theorem reachable_conservation_witness :
    Reachable playedLeague ∧
    ((playedLeague.teams.map Team.goalsFor).sum =
        (playedLeague.teams.map Team.goalsAgainst).sum ∧
      (playedLeague.teams.map Team.wins).sum =
        (playedLeague.teams.map Team.losses).sum) :=
  ⟨reachable_playedLeague,
    reachable_conservation playedLeague reachable_playedLeague⟩

theorem tableLess_asymm {x h : LeagueTableEntry} (hxh : tableLess x h = true) :
    tableLess h x = false := by
  simp only [tableLess] at *
  split_ifs at * <;> simp_all <;> omega

theorem tableLess_trans_nle {x h e : LeagueTableEntry}
    (hxh : tableLess x h = true) (heh : tableLess e h = false) :
    tableLess e x = false := by
  simp only [tableLess] at *
  split_ifs at * <;> simp_all <;> omega

theorem tableLess_congr_key {x e h : LeagueTableEntry}
    (hp : x.points = e.points) (hg : x.goalsDifference = e.goalsDifference) :
    tableLess x h = tableLess e h := by
  simp only [tableLess, hp, hg]

theorem tableLess_irrefl (a : LeagueTableEntry) : tableLess a a = false := by
  simp [tableLess]

theorem mem_goInsert {e x : LeagueTableEntry} {l : List LeagueTableEntry}
    (h : e ∈ goInsert x l) : e = x ∨ e ∈ l := by
  induction l with
  | nil => simpa [goInsert] using h
  | cons a t ih =>
      simp only [goInsert] at h
      by_cases hxa : tableLess x a = true
      · rw [if_pos hxa] at h
        exact List.mem_cons.mp h
      · rw [if_neg (by simpa using hxa)] at h
        rcases List.mem_cons.mp h with h | h
        · exact .inr (h ▸ List.mem_cons_self a t)
        · rcases ih h with h' | h'
          · exact .inl h'
          · exact .inr (List.mem_cons_of_mem a h')

theorem goInsert_perm (x : LeagueTableEntry) (l : List LeagueTableEntry) :
    (goInsert x l).Perm (x :: l) := by
  induction l with
  | nil => simp [goInsert]
  | cons a t ih =>
      by_cases hxa : tableLess x a = true
      · simp [goInsert, hxa]
      · simp only [goInsert, hxa, Bool.false_eq_true, if_false]
        exact (ih.cons a).trans (List.Perm.swap x a t)

theorem goInsert_sorted (x : LeagueTableEntry) (l : List LeagueTableEntry)
    (hs : List.Pairwise (fun a b => tableLess b a = false) l) :
    List.Pairwise (fun a b => tableLess b a = false) (goInsert x l) := by
  induction l with
  | nil => simp [goInsert]
  | cons a t ih =>
      obtain ⟨ha, ht⟩ := List.pairwise_cons.mp hs
      by_cases hxa : tableLess x a = true
      · simp only [goInsert, hxa, if_true]
        refine List.pairwise_cons.mpr ⟨?_, hs⟩
        intro e he
        rcases List.mem_cons.mp he with rfl | he'
        · exact tableLess_asymm hxa
        · exact tableLess_trans_nle hxa (ha e he')
      · simp only [goInsert, hxa, Bool.false_eq_true, if_false]
        refine List.pairwise_cons.mpr ⟨?_, ih ht⟩
        intro e he
        rcases mem_goInsert he with rfl | he'
        · simpa using hxa
        · exact ha e he'

theorem goInsert_filter (P G : Int) (x : LeagueTableEntry)
    (l : List LeagueTableEntry)
    (hs : List.Pairwise (fun a b => tableLess b a = false) l) :
    (goInsert x l).filter (fun e => e.points == P && e.goalsDifference == G) =
      l.filter (fun e => e.points == P && e.goalsDifference == G) ++
        (if x.points == P && x.goalsDifference == G then [x] else []) := by
  induction l with
  | nil => simp [goInsert, List.filter_cons]
  | cons a t ih =>
      obtain ⟨ha, ht⟩ := List.pairwise_cons.mp hs
      by_cases hxa : tableLess x a = true
      · simp only [goInsert, hxa, if_true]
        by_cases hkx : (x.points == P && x.goalsDifference == G) = true
        · have hka : (a.points == P && a.goalsDifference == G) = false := by
            rcases Bool.eq_false_or_eq_true (a.points == P && a.goalsDifference == G)
              with hka | hka
            · exfalso
              simp only [Bool.and_eq_true, beq_iff_eq] at hkx hka
              have hcong := tableLess_congr_key (x := x) (e := a) (h := a)
                (by omega) (by omega)
              rw [tableLess_irrefl] at hcong
              rw [hcong] at hxa
              simp at hxa
            · exact hka
          have hkt : ∀ e ∈ t, (e.points == P && e.goalsDifference == G) = false := by
            intro e he
            rcases Bool.eq_false_or_eq_true (e.points == P && e.goalsDifference == G)
              with hke | hke
            · exfalso
              simp only [Bool.and_eq_true, beq_iff_eq] at hkx hke
              have hcong := tableLess_congr_key (x := x) (e := e) (h := a)
                (by omega) (by omega)
              rw [ha e he] at hcong
              rw [hcong] at hxa
              simp at hxa
            · exact hke
          have hft : List.filter (fun e => e.points == P && e.goalsDifference == G)
              (a :: t) = [] := by
            rw [List.filter_eq_nil_iff]
            intro e he
            rcases List.mem_cons.mp he with rfl | he'
            · simp [hka]
            · simp [hkt e he']
          rw [List.filter_cons_of_pos (by simpa using hkx), hft, hkx]
          simp
        · have hkx' : (x.points == P && x.goalsDifference == G) = false := by
            simpa using hkx
          rw [List.filter_cons_of_neg (by simpa using hkx'), hkx']
          simp
      · simp only [goInsert, hxa, Bool.false_eq_true, if_false]
        rw [List.filter_cons, List.filter_cons, ih ht]
        by_cases hka : (a.points == P && a.goalsDifference == G) = true <;>
          simp [hka]

theorem foldl_goInsert_sorted (l : List LeagueTableEntry) :
    ∀ acc, List.Pairwise (fun a b => tableLess b a = false) acc →
      List.Pairwise (fun a b => tableLess b a = false)
        (l.foldl (fun acc x => goInsert x acc) acc) := by
  induction l with
  | nil => exact fun acc h => h
  | cons x t ih =>
      intro acc hacc
      exact ih (goInsert x acc) (goInsert_sorted x acc hacc)

theorem foldl_goInsert_perm (l : List LeagueTableEntry) :
    ∀ acc, (l.foldl (fun acc x => goInsert x acc) acc).Perm (acc ++ l) := by
  induction l with
  | nil => simp
  | cons x t ih =>
      intro acc
      refine ((ih (goInsert x acc)).trans ?_)
      refine (((goInsert_perm x acc).append_right t).trans ?_)
      exact List.perm_middle.symm

theorem foldl_goInsert_filter (P G : Int) (l : List LeagueTableEntry) :
    ∀ acc, List.Pairwise (fun a b => tableLess b a = false) acc →
      (l.foldl (fun acc x => goInsert x acc) acc).filter
          (fun e => e.points == P && e.goalsDifference == G) =
        acc.filter (fun e => e.points == P && e.goalsDifference == G) ++
          l.filter (fun e => e.points == P && e.goalsDifference == G) := by
  induction l with
  | nil => simp
  | cons x t ih =>
      intro acc hacc
      rw [List.foldl_cons, ih (goInsert x acc) (goInsert_sorted x acc hacc),
        goInsert_filter P G x acc hacc, List.filter_cons]
      by_cases hkx : (x.points == P && x.goalsDifference == G) = true <;>
        simp [hkx]

theorem goSort_sorted (l : List LeagueTableEntry) :
    List.Pairwise (fun a b => tableLess b a = false) (goSort l) :=
  foldl_goInsert_sorted l [] (by simp)

theorem goSort_perm (l : List LeagueTableEntry) : (goSort l).Perm l := by
  simpa using foldl_goInsert_perm l []

theorem goSort_filter (P G : Int) (l : List LeagueTableEntry) :
    (goSort l).filter (fun e => e.points == P && e.goalsDifference == G) =
      l.filter (fun e => e.points == P && e.goalsDifference == G) := by
  simpa using foldl_goInsert_filter P G l [] (by simp)

theorem assignPositions_map_position (l : List LeagueTableEntry) :
    ∀ k : Int, (assignPositions k l).map (fun e => e.position) =
      (List.range l.length).map (fun i : Nat => k + (i : Int)) := by
  induction l with
  | nil => simp [assignPositions]
  | cons e t ih =>
      intro k
      simp only [List.length_cons]
      rw [List.range_succ_eq_map]
      simp only [assignPositions, List.map_cons, List.map_map, ih (k + 1)]
      refine congrArg₂ _ (by simp) ?_
      refine List.map_congr_left ?_
      intro i hi
      simp only [Function.comp_apply]
      push_cast
      ring

theorem tableLess_false_iff (a b : LeagueTableEntry) :
    tableLess b a = false ↔
      (b.points < a.points ∨
        (b.points = a.points ∧ b.goalsDifference ≤ a.goalsDifference)) := by
  simp only [tableLess]
  split_ifs with h <;> simp <;> omega

/-- C5: `updateLeagueTable` builds one entry per competitor (a permutation
of the per-team projections `toEntry`, in particular the same length),
orders them with points descending as primary key and goal difference
descending as tie-break, keeps competitors tied on both keys in the
`league.Teams` iteration order (the filter of the sorted list at any fixed
(points, goal difference) key equals the filter of the input projections),
and assigns 1-based positions in final sorted order. -/
theorem updateLeagueTable_spec (s : League) :
    (updateLeagueTable s).leagueTable =
      assignPositions 1 (goSort (s.teams.map toEntry)) ∧
    (goSort (s.teams.map toEntry)).Perm (s.teams.map toEntry) ∧
    List.Pairwise
      (fun a b => b.points < a.points ∨
        (b.points = a.points ∧ b.goalsDifference ≤ a.goalsDifference))
      (goSort (s.teams.map toEntry)) ∧
    (∀ P G : Int,
      (goSort (s.teams.map toEntry)).filter
          (fun e => e.points == P && e.goalsDifference == G) =
        (s.teams.map toEntry).filter
          (fun e => e.points == P && e.goalsDifference == G)) ∧
    (updateLeagueTable s).leagueTable.map (fun e => e.position) =
      (List.range s.teams.length).map (fun i : Nat => 1 + (i : Int)) := by
  refine ⟨rfl, goSort_perm _, ?_, fun P G => goSort_filter P G _, ?_⟩
  · exact (goSort_sorted (s.teams.map toEntry)).imp
      (fun h => (tableLess_false_iff _ _).mp h)
  · have hlen : (goSort (s.teams.map toEntry)).length = s.teams.length := by
      rw [(goSort_perm (s.teams.map toEntry)).length_eq, List.length_map]
    simp only [updateLeagueTable]
    rw [assignPositions_map_position _ 1, hlen]

/-- The strength lookup of `predictChampionship` (main.go lines 353-360):
first team whose name matches the entry's, defaulting to 75. -/
def strengthOf (teams : List Team) (name : String) : Int :=
  match teams.find? (fun t => t.teamName == name) with
  | some t => t.teamStrength
  | none => 75

/-- The per-entry weight of `predictChampionship` (main.go lines 362-375),
with the float arithmetic read as exact rational arithmetic (the decimal
literals denote the intended real coefficients; no verified property
depends on binary rounding): `points·0.4 + (strength/100)·30 +
max(goalDifference·0.2, 0) + wins·1`, then ×1.2 for position 1 and ×1.1
for position 2. -/
def entryWeight (teams : List Team) (e : LeagueTableEntry) : ℚ :=
  let pointsWeight : ℚ := (e.points : ℚ) * 0.4
  let strengthWeight : ℚ := ((strengthOf teams e.teamName : ℚ) / 100) * 30
  let gdWeight : ℚ := max ((e.goalsDifference : ℚ) * 0.2) 0
  let formWeight : ℚ := (e.wins : ℚ) * 1
  let w := pointsWeight + strengthWeight + gdWeight + formWeight
  if e.position = 1 then w * 1.2
  else if e.position = 2 then w * 1.1
  else w

/-- `totalWeight` of `predictChampionship` (main.go lines 349-379). -/
def totalWeight (s : League) : ℚ :=
  (s.leagueTable.map (entryWeight s.teams)).sum

/-- `predictChampionship` (main.go lines 321-391) as the name-to-percentage
mapping it returns, one pair per league-table entry (team names are
distinct, so the Go maps keyed by name carry exactly these associations):
`weight/totalWeight·100` per entry when the total weight is positive,
otherwise a flat 25. -/
def predictChampionship (s : League) : List (String × ℚ) :=
  s.leagueTable.map (fun e =>
    (e.teamName,
      if 0 < totalWeight s then entryWeight s.teams e / totalWeight s * 100
      else 25))

/-- The weight formula exactly as the specification states it:
`0.4·points + 0.3·strength + 0.2·max(goalDifference, 0) + 1.0·wins`, with
the ×1.2 / ×1.1 leader bonuses applied after the base weight. -/
def specWeight (teams : List Team) (e : LeagueTableEntry) : ℚ :=
  let base := 0.4 * (e.points : ℚ) + 0.3 * (strengthOf teams e.teamName : ℚ) +
    0.2 * max (e.goalsDifference : ℚ) 0 + 1 * (e.wins : ℚ)
  if e.position = 1 then base * 1.2
  else if e.position = 2 then base * 1.1
  else base

theorem entryWeight_eq_specWeight (teams : List Team) (e : LeagueTableEntry) :
    entryWeight teams e = specWeight teams e := by
  have hbase : (e.points : ℚ) * 0.4 + ((strengthOf teams e.teamName : ℚ) / 100) * 30 +
      max ((e.goalsDifference : ℚ) * 0.2) 0 + (e.wins : ℚ) * 1 =
      0.4 * (e.points : ℚ) + 0.3 * (strengthOf teams e.teamName : ℚ) +
        0.2 * max (e.goalsDifference : ℚ) 0 + 1 * (e.wins : ℚ) := by
    have hmax : max ((e.goalsDifference : ℚ) * 0.2) 0 =
        0.2 * max (e.goalsDifference : ℚ) 0 := by
      rcases le_total (e.goalsDifference : ℚ) 0 with h | h
      · rw [max_eq_right h, max_eq_right (by nlinarith), mul_zero]
      · rw [max_eq_left h, max_eq_left (by nlinarith)]
        ring
    rw [hmax]
    ring
  simp only [entryWeight, specWeight, hbase]

/-- C9: the outcome predictor computes for every competitor exactly the
spec's weight `0.4·points + 0.3·strength + 0.2·max(goalDifference,0) +
1.0·wins` with the ×1.2 / ×1.1 position bonuses, normalizes by the weight
total ×100 when that total is positive; for a 4-entry table the returned
percentages sum to exactly 100 (in exact arithmetic) whenever the total is
nonzero, and every competitor receives 25 when the total weight is zero. -/
theorem predictChampionship_spec (s : League) (hlen : s.leagueTable.length = 4) :
    predictChampionship s = s.leagueTable.map (fun e =>
      (e.teamName,
        if 0 < totalWeight s then specWeight s.teams e / totalWeight s * 100
        else 25)) ∧
    (totalWeight s ≠ 0 → ((predictChampionship s).map Prod.snd).sum = 100) ∧
    (totalWeight s = 0 → ∀ p ∈ predictChampionship s, p.2 = 25) := by
  refine ⟨?_, ?_, ?_⟩
  · refine List.map_congr_left ?_
    intro e he
    rw [entryWeight_eq_specWeight]
  · intro hW
    by_cases hpos : 0 < totalWeight s
    · simp only [predictChampionship, hpos, if_true, List.map_map]
      have hfun : ((fun p : String × ℚ => p.2) ∘ fun e : LeagueTableEntry =>
          (e.teamName, entryWeight s.teams e / totalWeight s * 100)) =
          fun e : LeagueTableEntry =>
            entryWeight s.teams e * (100 / totalWeight s) := by
        funext e
        simp only [Function.comp_apply]
        field_simp
      rw [hfun, List.sum_map_mul_right]
      rw [← totalWeight]
      field_simp
    · simp only [predictChampionship, hpos, if_false, List.map_map]
      have hfun : ((fun p : String × ℚ => p.2) ∘ fun e : LeagueTableEntry =>
          (e.teamName, (25 : ℚ))) = fun _ => (25 : ℚ) := rfl
      rw [hfun, List.map_const', List.sum_replicate, hlen]
      norm_num
  · intro hW p hp
    simp only [predictChampionship, hW, lt_irrefl, if_false,
      List.mem_map] at hp
    obtain ⟨e, he, rfl⟩ := hp
    rfl

/-- The league table `main` first builds (all ledgers zero). -/
def initTable : League := updateLeagueTable initLeague

/-- Witness for `predictChampionship_spec` at the freshly built table. -/
theorem predictChampionship_spec_witness :
    initTable.leagueTable.length = 4 ∧
    ((totalWeight initTable ≠ 0 →
        ((predictChampionship initTable).map Prod.snd).sum = 100) ∧
      (totalWeight initTable = 0 →
        ∀ p ∈ predictChampionship initTable, p.2 = 25)) :=
  ⟨by decide, (predictChampionship_spec initTable (by decide)).2⟩
